import Mathlib

/-!
Shallow embedding of the vivian protocol core (packet framing, CRC, burst
sequencing, directory codec, time codec, per-command state machines and the
protocol manager) together with theorems settling the specification claims.

Bytes are modelled as `Nat` values; machine truncation is explicit (`% 256`,
`% 2^32`).  Fallible C functions returning negative error codes are modelled
with `Option` or with an explicit `Int` result, mirroring the source branch
structure.
-/

set_option maxRecDepth 40000

namespace Viv

/-! ## CRC (Sources/viv/crc.cpp)

CRC-8, polynomial 0x07, initial value 0, unreflected.  The source builds a
256-entry table where `lookup[i] = crc8_precalc(i)`; `crc` folds
`crc = lookup[crc ^ byte]` over the input.  We inline the table lookup as a
call to `crc8_precalc`. -/

/-- One iteration of the loop in `crc8_precalc`:
`x = x & 0x80 ? (x << 1) ^ 7 : x << 1`, on a `uint8_t` (hence `% 256`). -/
def crc8Round (x : Nat) : Nat :=
  if 128 ≤ x % 256 then ((x * 2) % 256) ^^^ 7 else (x * 2) % 256

/-- Source `crc8_precalc<7>(x)`: eight rounds of `crc8Round`. -/
def crc8_precalc (x : Nat) : Nat :=
  crc8Round (crc8Round (crc8Round (crc8Round
    (crc8Round (crc8Round (crc8Round (crc8Round x)))))))

/-- Source `viv::crc(data, length)`: fold the table lookup over the bytes. -/
def crc (data : List Nat) : Nat :=
  data.foldl (fun c b => crc8_precalc (c ^^^ b)) 0

/-! ## Little-endian helpers (endian.hpp) -/

/-- Source `VLWriteLittleInt16`: the two little-endian bytes of a 16-bit value. -/
def le16 (x : Nat) : List Nat := [x % 256, (x / 256) % 256]

/-- Source `VLWriteLittleInt32`: the four little-endian bytes of a 32-bit value. -/
def le32 (x : Nat) : List Nat :=
  [x % 256, (x / 256) % 256, (x / 65536) % 256, (x / 16777216) % 256]

/-- Source `OSReadLittleInt16(p, offset)`. -/
def OSReadLittleInt16 (p : List Nat) (offset : Nat) : Nat :=
  p.getD offset 0 + 256 * p.getD (offset + 1) 0

/-- Source `OSReadLittleInt32(p, offset)`. -/
def OSReadLittleInt32 (p : List Nat) (offset : Nat) : Nat :=
  p.getD offset 0 + 256 * p.getD (offset + 1) 0 +
    65536 * p.getD (offset + 2) 0 + 16777216 * p.getD (offset + 3) 0

/-! ## Packets (packet.h / packet.cpp) -/

/-- Source `VLPacket`: the packed wire struct.  `payload` holds exactly the
meaningful `payload_length` bytes (the C struct's trailing buffer bytes
beyond `payload_length` are uninitialised and never read on the paths
modelled here). -/
structure VLPacket where
  crc : Nat
  payload_length : Nat
  sender : Nat
  receiver : Nat
  cmd0 : Nat
  cmd1 : Nat
  payload : List Nat
  deriving DecidableEq, Repr

/-- Source `kVLSeqnoEnd`. -/
def kVLSeqnoEnd : Nat := 7

/-- Source `VLPacketLength`. -/
def VLPacketLength (p : VLPacket) : Nat := p.payload_length + 6

/-- Source `VLPacketSeqno`: `packet->crc >> 5`. -/
def VLPacketSeqno (p : VLPacket) : Nat := p.crc / 32

/-- Source `VLGetNextSeqno`: `(seqno % 6) + 1`. -/
def VLGetNextSeqno (seqno : Nat) : Nat := (seqno % 6) + 1

/-- Source `VLDoesSeqnoMatch`: `seqno == expected || seqno == kVLSeqnoEnd`. -/
def VLDoesSeqnoMatch (seqno expected : Nat) : Bool :=
  seqno == expected || seqno == kVLSeqnoEnd

/-- The little-endian command id of a packet (`OSReadLittleInt16(packet.cmd, 0)`). -/
def VLPacket.cmdId (p : VLPacket) : Nat := p.cmd0 + 256 * p.cmd1

/-- Source `VLMakePacket(seqno, cmd, payload, payload_length)`.

The CRC is computed over the packet bytes starting at `payload_length`
(all bytes except the leading seqno+CRC byte); `seqno <<= 5` on a `uint8_t`
is `(seqno % 8) * 32`, and the OR with the 5-bit-masked CRC is addition
because the bit ranges are disjoint. -/
def VLMakePacket (seqno cmd : Nat) (payload : List Nat) : VLPacket :=
  let body := [payload.length, 3, 1, cmd % 256, (cmd / 256) % 256] ++ payload
  { crc := (seqno % 8) * 32 + crc body % 32
    payload_length := payload.length
    sender := 3
    receiver := 1
    cmd0 := cmd % 256
    cmd1 := (cmd / 256) % 256
    payload := payload }

/-- Source `VLMakeAckPacket(cmd)`: `VLMakePacket(kVLSeqnoEnd, cmd | 0x8000, nullptr, 0)`. -/
def VLMakeAckPacket (cmd : Nat) : VLPacket :=
  VLMakePacket kVLSeqnoEnd (cmd ||| 0x8000) []

/-- Source `VLWritePacket`: the `6 + payload_length` wire bytes of a packet. -/
def VLWritePacket (p : VLPacket) : List Nat :=
  [p.crc, p.payload_length, p.sender, p.receiver, p.cmd0, p.cmd1] ++ p.payload

/-- Source `VLReadPacket(packet, src, length)`.

Returns `none` where the C returns a negative error (-1 for the length
checks, -2 for the CRC check). -/
def VLReadPacket (src : List Nat) : Option VLPacket :=
  if 20 < src.length ∨ src.length < 6 ∨ src.length ≠ 6 + src.getD 1 0 then
    none
  else
    let p : VLPacket :=
      { crc := src.getD 0 0
        payload_length := src.getD 1 0
        sender := src.getD 2 0
        receiver := src.getD 3 0
        cmd0 := src.getD 4 0
        cmd1 := src.getD 5 0
        payload := src.drop 6 }
    if p.crc % 32 ≠ crc (src.drop 1) % 32 then none else some p

/-- Source `VLValidatePacketFromViva`: true (non-zero) iff the packet is NOT
marked as coming from the Viiiiva. -/
def VLValidatePacketFromViva (p : VLPacket) : Bool :=
  p.sender ≠ 1 || p.receiver ≠ 3

/-! ## Burst tracker (Sources/viv/burst.cpp, include/viv/burst.hpp) -/

/-- Source `kSeqnoUninitialized`. -/
def kSeqnoUninitialized : Nat := 0

/-- Source `kSeqnoInvalid`. -/
def kSeqnoInvalid : Nat := 8

/-- Source `BurstState` / `Burst`: the next expected sequence number. -/
structure Burst where
  seqno : Nat
  deriving DecidableEq, Repr

/-- Source `Burst()`. -/
def Burst.empty : Burst := ⟨0⟩

/-- Source `Burst::IsEmpty`. -/
def Burst.IsEmpty (b : Burst) : Bool := b.seqno == kSeqnoUninitialized

/-- Source `Burst::HasEnded`. -/
def Burst.HasEnded (b : Burst) : Bool := b.seqno == kVLSeqnoEnd

/-- Source `Burst::IsValid`. -/
def Burst.IsValid (b : Burst) : Bool := b.seqno != kSeqnoInvalid

/-- Source `Burst::ReadPacket`. -/
def Burst.ReadPacket (b : Burst) (packet : VLPacket) : Burst :=
  let seqno := VLPacketSeqno packet
  if ¬VLDoesSeqnoMatch seqno b.seqno ∨ b.seqno = kVLSeqnoEnd then
    ⟨kSeqnoInvalid⟩
  else if seqno = kVLSeqnoEnd then
    ⟨seqno⟩
  else
    ⟨VLGetNextSeqno seqno⟩

/-! ## Time codec (Sources/viv/vivtime.cpp) -/

/-- Source `kAntEpoch`. -/
def kAntEpoch : Nat := 631065600

/-- Source `VLGetVivaTimeFromPosix`: `static_cast<uint32_t>(posix_time - kAntEpoch)`
on an `int64` POSIX time, i.e. reduction modulo `2^32`. -/
def VLGetVivaTimeFromPosix (posix_time : Int) : Nat :=
  ((posix_time - (kAntEpoch : Int)) % (2 ^ 32 : Nat)).toNat

/-- Source `VLGetPosixTimeFromViva`: widen and add the epoch. -/
def VLGetPosixTimeFromViva (viva_time : Nat) : Int :=
  (viva_time : Int) + (kAntEpoch : Int)

/-! ## Raw directory codec (Sources/viv/raw_directory.cpp, raw_directory.h) -/

/-- Source `VLRawDirectoryHeader` (16 packed bytes). -/
structure VLDirectoryHeader where
  version : Nat
  record_length : Nat
  time_format : Nat
  time : Nat
  deriving DecidableEq, Repr

/-- Source `VLRawDirectoryEntry` (16 packed bytes). -/
structure VLRawDirectoryEntry where
  index : Nat
  file_type : Nat
  subtype : Nat
  file_id : Nat
  type_flags : Nat
  flags : Nat
  length : Nat
  time : Nat
  deriving DecidableEq, Repr

/-- Decode the 16 header bytes into the packed struct fields
(the `memcpy` in `VLReadDirectoryHeader`). -/
def decodeDirectoryHeader (src : List Nat) : VLDirectoryHeader :=
  { version := src.getD 0 0
    record_length := src.getD 1 0
    time_format := src.getD 2 0
    time := OSReadLittleInt32 src 8 }

/-- Decode 16 entry bytes into the packed struct fields
(the `memcpy` in `VLReadNextDirectoryEntry`). -/
def decodeDirectoryEntry (src : List Nat) : VLRawDirectoryEntry :=
  { index := OSReadLittleInt16 src 0
    file_type := src.getD 2 0
    subtype := src.getD 3 0
    file_id := OSReadLittleInt16 src 4
    type_flags := src.getD 6 0
    flags := src.getD 7 0
    length := OSReadLittleInt32 src 8
    time := OSReadLittleInt32 src 12 }

/-- Source `VLReadDirectoryHeader`: copies 16 bytes and verifies
`version == 1`, `record_length == 16`, `time_format == 0`; `none` models
the negative error returns.  (The source `assert`s 16 ≤ length.) -/
def VLReadDirectoryHeader (src : List Nat) : Option VLDirectoryHeader :=
  if src.length < 16 then none
  else
    let dir := decodeDirectoryHeader src
    if dir.version ≠ 1 then none
    else if dir.record_length ≠ 16 then none
    else if dir.time_format ≠ 0 then none
    else some dir

/-- Source `VLReadNextDirectoryEntry`: requires 16 remaining bytes. -/
def VLReadNextDirectoryEntry (src : List Nat) : Option VLRawDirectoryEntry :=
  if src.length < 16 then none else some (decodeDirectoryEntry src)

/-! ## Logical directory (directory.hpp, Sources/viv/directory.cpp) -/

/-- Source `VLFileType` composition and the logical `VLDirectoryEntry`
(directory_entry.h): `posix_time`, `length`, `index`,
`file_type | (subtype << 8)`. -/
structure VLDirectoryEntry where
  posix_time : Int
  length : Nat
  index : Nat
  file_type : Nat
  deriving DecidableEq, Repr

/-- Source `DirectoryEntry::index()`. -/
def DirectoryEntry.index (e : VLRawDirectoryEntry) : Nat := e.index

/-- Source `DirectoryEntry::file_type()`: `entry_.file_type | (entry_.subtype << 8)`. -/
def DirectoryEntry.fileType (e : VLRawDirectoryEntry) : Nat :=
  e.file_type ||| (e.subtype * 256)

/-- Source `DirectoryEntry::entry()`: the logical directory entry. -/
def DirectoryEntry.entry (e : VLRawDirectoryEntry) : VLDirectoryEntry :=
  { posix_time := VLGetPosixTimeFromViva e.time
    length := e.length
    index := e.index
    file_type := DirectoryEntry.fileType e }

/-- Source `std::map<uint16_t, ...>::emplace` on an association list kept sorted in
strictly ascending key order: inserts `⟨k, v⟩` only when no element with key
`k` is present (emplace does not overwrite). -/
def mapEmplace (m : List (Nat × VLRawDirectoryEntry)) (k : Nat)
    (v : VLRawDirectoryEntry) : List (Nat × VLRawDirectoryEntry) :=
  match m with
  | [] => [(k, v)]
  | (k', v') :: rest =>
    if k < k' then (k, v) :: (k', v') :: rest
    else if k = k' then (k', v') :: rest
    else (k', v') :: mapEmplace rest k v

/-- Key lookup in the association-list map. -/
def mapFind (m : List (Nat × VLRawDirectoryEntry)) (k : Nat) :
    Option VLRawDirectoryEntry :=
  match m with
  | [] => none
  | (k', v') :: rest => if k = k' then some v' else mapFind rest k

/-- The entry-reading loop of `Directory::Reader::Read`: starting from the
byte position after the header, repeatedly `VLReadNextDirectoryEntry` and
`entries_.emplace(entry.index(), entry)` until the buffer is exhausted. -/
def readEntriesLoop (src : List Nat) (m : List (Nat × VLRawDirectoryEntry)) :
    Option (List (Nat × VLRawDirectoryEntry)) :=
  if src.isEmpty then some m
  else
    match VLReadNextDirectoryEntry src with
    | none => none
    | some raw => readEntriesLoop (src.drop 16) (mapEmplace m raw.index raw)
termination_by src.length
decreasing_by
  simp only [List.isEmpty_iff] at *
  have : src.length ≠ 0 := fun h => by simp_all [List.length_eq_zero]
  simp [List.length_drop]
  omega

/-- Accumulated effect of the reader's entry loop on the index-keyed map:
fold `emplace` of the decoded record, keyed by its index field, over a list
of 16-byte entry records. -/
def emplaceAll (bs : List (List Nat)) (m : List (Nat × VLRawDirectoryEntry)) :
    List (Nat × VLRawDirectoryEntry) :=
  bs.foldl (fun acc b =>
    mapEmplace acc (decodeDirectoryEntry b).index (decodeDirectoryEntry b)) m

/-- Source `Directory::Reader::Read`: read the header, then all 16-byte entries;
`none` models `return false`. -/
def Directory.Reader.Read (src : List Nat) :
    Option (VLDirectoryHeader × List (Nat × VLRawDirectoryEntry)) :=
  match VLReadDirectoryHeader src with
  | none => none
  | some hdr =>
    match readEntriesLoop (src.drop 16) [] with
    | none => none
    | some m => some (hdr, m)

/-! ## Commands (command.hpp, Sources/viv/command.cpp)

Each command's `ReadPacket`/`ReadAck`/`ReadReply` mutates the command and
returns an `int`; we model them as `state → packet → state × Int`, mirroring
the source branch-by-branch (an early `return err` leaves the members
untouched). -/

/-- Free function `viv::ReadAck(packet, cmd)`: returns the (positive, 1)
result of `VLValidatePacketFromViva` when the direction is wrong, `-2` when
the command id is not `cmd | 0x8000`, else `0`. -/
def ReadAck (packet : VLPacket) (cmd : Nat) : Int :=
  if VLValidatePacketFromViva packet then 1
  else if packet.cmdId ≠ (cmd ||| 0x8000) then -2
  else 0

/-! ### DownloadCommand (download_command.cpp) -/

/-- Source `kCommandDownload` / `kCommandDownloadReply`. -/
def kCommandDownload : Nat := 0x010b

def kCommandDownloadReply : Nat := 0x030b

/-- The mutable state of a `DownloadCommand` (`buf_`, `burst_`, the
`has_ack_` flag inherited from `CommandWithReply`) together with its
constructor parameters. -/
structure DownloadCommand where
  buf : List Nat
  burst : Burst
  has_ack : Bool
  offset : Nat
  length : Nat
  index : Nat
  deriving DecidableEq, Repr

/-- The two-argument convenience constructor:
`DownloadCommand(index, 0, 0xffffffff, on_finish)`. -/
def DownloadCommand.new (index : Nat) : DownloadCommand :=
  { buf := [], burst := Burst.empty, has_ack := false
    offset := 0, length := 0xffffffff, index := index }

/-- Source `DownloadCommand::MakeCommandPacket`. -/
def DownloadCommand.MakeCommandPacket (c : DownloadCommand) : VLPacket :=
  VLMakePacket kVLSeqnoEnd kCommandDownload (le16 c.index ++ le32 c.offset ++ le32 c.length)

/-- Source `DownloadCommand::ReadAck`. -/
def DownloadCommand.ReadAck (c : DownloadCommand) (packet : VLPacket) :
    DownloadCommand × Int :=
  let err := Viv.ReadAck packet kCommandDownload
  if err ≠ 0 then (c, err)
  else
    let length := OSReadLittleInt32 packet.payload 6
    if c.index ≠ OSReadLittleInt16 packet.payload 0 ∨
        c.offset ≠ OSReadLittleInt32 packet.payload 2 ∨ length > c.length then
      (c, -3)
    else
      -- buf_.reserve only changes capacity, not contents
      ({ c with has_ack := true }, 0)

/-- Source `DownloadCommand::ReadReply`. -/
def DownloadCommand.ReadReply (c : DownloadCommand) (packet : VLPacket) :
    DownloadCommand × Int :=
  if packet.cmdId ≠ kCommandDownloadReply ∨ packet.payload_length = 0 ∨
      VLValidatePacketFromViva packet then
    (c, -1)
  else
    let burst := c.burst.ReadPacket packet
    if ¬burst.IsValid then (c, -2)
    else
      ({ c with burst := burst,
                buf := c.buf ++ packet.payload.take packet.payload_length },
       (packet.payload_length : Int))

/-- Source `CommandWithReply::ReadPacket` for `DownloadCommand`. -/
def DownloadCommand.ReadPacket (c : DownloadCommand) (packet : VLPacket) :
    DownloadCommand × Int :=
  if c.has_ack then c.ReadReply packet else c.ReadAck packet

/-- The boolean part of `DownloadCommand::MaybeFinish`
(`has_ack_ && burst_.HasEnded()`); the `on_finish_` invocation is modelled
at the manager level, where the callback's effects are visible. -/
def DownloadCommand.MaybeFinish (c : DownloadCommand) : Bool :=
  c.has_ack && c.burst.HasEnded

/-! ### EraseCommand (erase_command.cpp) -/

/-- Source `kCommandErase` / `kCommandEraseReply`. -/
def kCommandErase : Nat := 0x040b

def kCommandEraseReply : Nat := 0x050b

/-- The mutable state of an `EraseCommand`. -/
structure EraseCommand where
  index : Nat
  has_ack : Bool
  is_ok : Bool
  is_finished : Bool
  deriving DecidableEq, Repr

/-- Source `EraseCommand(index, on_finish)`: `is_ok_ = false`, `is_finished_ = false`. -/
def EraseCommand.new (index : Nat) : EraseCommand :=
  { index := index, has_ack := false, is_ok := false, is_finished := false }

/-- Source `EraseCommand::MakeCommandPacket`. -/
def EraseCommand.MakeCommandPacket (c : EraseCommand) : VLPacket :=
  VLMakePacket kVLSeqnoEnd kCommandErase (le16 c.index)

/-- Source `CommandWithReply::ReadAck` (shared skeleton) for `EraseCommand`. -/
def EraseCommand.ReadAck (c : EraseCommand) (packet : VLPacket) :
    EraseCommand × Int :=
  let err := Viv.ReadAck packet kCommandErase
  if err = 0 then ({ c with has_ack := true }, 0) else (c, err)

/-- Source `EraseCommand::ReadReply`.  Matching the source's short-circuit order:
`payload[0]` is only consulted after `payload_length == 1` holds. -/
def EraseCommand.ReadReply (c : EraseCommand) (packet : VLPacket) :
    EraseCommand × Int :=
  if ¬c.has_ack ∨ c.is_finished then (c, -1)
  else if packet.cmdId ≠ kCommandEraseReply ∨ packet.payload_length ≠ 1 ∨
      packet.payload.getD 0 0 ≠ 0 ∨ VLValidatePacketFromViva packet then
    (c, -2)
  else ({ c with is_finished := true }, 0)

/-- Source `CommandWithReply::ReadPacket` for `EraseCommand`. -/
def EraseCommand.ReadPacket (c : EraseCommand) (packet : VLPacket) :
    EraseCommand × Int :=
  if c.has_ack then c.ReadReply packet else c.ReadAck packet

/-- Source `EraseCommand::MaybeFinish`: `has_ack_ && is_finished_`.  Note the
source never invokes `on_finish_` and never sets `is_ok_`. -/
def EraseCommand.MaybeFinish (c : EraseCommand) : Bool :=
  c.has_ack && c.is_finished

/-! ### SetTimeCommand (set_time_command.cpp) -/

/-- Source `kCommandSetTime`. -/
def kCommandSetTime : Nat := 0x0108

/-- The mutable state of a `SetTimeCommand`. -/
structure SetTimeCommand where
  time : Nat
  has_ack : Bool
  deriving DecidableEq, Repr

/-- Source `SetTimeCommand(ant_time, on_finish)`. -/
def SetTimeCommand.new (ant_time : Nat) : SetTimeCommand :=
  { time := ant_time, has_ack := false }

/-- Source `SetTimeCommand::MakeCommandPacket`. -/
def SetTimeCommand.MakeCommandPacket (c : SetTimeCommand) : VLPacket :=
  VLMakePacket kVLSeqnoEnd kCommandSetTime (le32 c.time)

/-- Source `SetTimeCommand::ReadPacket`. -/
def SetTimeCommand.ReadPacket (c : SetTimeCommand) (packet : VLPacket) :
    SetTimeCommand × Int :=
  let err := Viv.ReadAck packet kCommandSetTime
  if err = 0 then ({ c with has_ack := true }, 0) else (c, err)

/-- The boolean part of `SetTimeCommand::MaybeFinish` (it returns
`has_ack_`); the unconditional `on_finish_(has_ack_)` call is modelled at
the manager level. -/
def SetTimeCommand.MaybeFinish (c : SetTimeCommand) : Bool :=
  c.has_ack

/-! ## Protocol manager (manager.hpp, manager.cpp)

The manager owns one optional simple command (`command_`, holding a
`SetTimeCommand`) and one optional reply command (`response_`, holding a
`DownloadCommand` or `EraseCommand`).  Delegate callbacks are modelled as an
emitted event list, in invocation order; `delegate_->WriteValue` is modelled
as succeeding (the claims under verification do not exercise write
failures). -/

/-- Source `VLManagerErrorCode` (manager_error_code.h). -/
inductive VLManagerErrorCode where
  | noError
  | badHeader
  | badPayload
  | unexpected
  deriving DecidableEq, Repr

/-- One delegate callback invocation (`ManagerDelegate`, manager.hpp). -/
inductive Event where
  | writeValue (bytes : List Nat)
  | didStartWaiting
  | didFinishWaiting
  | didError (code : VLManagerErrorCode) (msg : String)
  | didParseDirectoryEntry (e : VLDirectoryEntry)
  | didFinishParsingDirectory
  | didDownloadFile (index : Nat) (data : List Nat)
  | didEraseFile (index : Nat) (ok : Bool)
  | didSetTime (ok : Bool)
  deriving DecidableEq, Repr

/-- Distinguishes the two `DownloadCommand` uses, which differ only in the
`on_finish` closure installed by `DownloadDirectory` / `DownloadFile`. -/
inductive DownloadKind where
  | directory
  | file
  deriving DecidableEq, Repr

/-- The contents of the manager's `response_` slot. -/
inductive ReplyCommand where
  | download (kind : DownloadKind) (c : DownloadCommand)
  | erase (c : EraseCommand)
  deriving DecidableEq, Repr

/-- Source `Command::name()` of the reply-slot command. -/
def ReplyCommand.name : ReplyCommand → String
  | .download _ _ => "download command"
  | .erase _ => "erase command"

/-- Source `CommandWithReply::ReadPacket` dispatch for the reply slot. -/
def ReplyCommand.ReadPacket (rc : ReplyCommand) (packet : VLPacket) :
    ReplyCommand × Int :=
  match rc with
  | .download kind c =>
    let (c', r) := c.ReadPacket packet
    (.download kind c', r)
  | .erase c =>
    let (c', r) := c.ReadPacket packet
    (.erase c', r)

/-- Source `CommandWithReply::ShouldAckReply`: overridden to `true` only by
`EraseCommand`. -/
def ReplyCommand.ShouldAckReply : ReplyCommand → Bool
  | .download _ _ => false
  | .erase _ => true

/-- Source `CommandWithReply::MakeResponseAckPacket`: `VLMakeAckPacket(reply_cmd_)`. -/
def ReplyCommand.MakeResponseAckPacket : ReplyCommand → VLPacket
  | .download _ _ => VLMakeAckPacket kCommandDownloadReply
  | .erase _ => VLMakeAckPacket kCommandEraseReply

/-- The `on_finish` closure installed by `Manager::DownloadDirectory`:
parse the accumulated buffer as a directory; on failure emit
`BadHeader "Error parsing directory"`, otherwise one
`DidParseDirectoryEntry` per map entry (ascending index) then
`DidFinishParsingDirectory`. -/
def directoryOnFinish (data : List Nat) : List Event :=
  match Directory.Reader.Read data with
  | none => [.didError .badHeader "Error parsing directory"]
  | some (_, m) =>
    m.map (fun p => Event.didParseDirectoryEntry (DirectoryEntry.entry p.2)) ++
      [.didFinishParsingDirectory]

/-- Source `Command::MaybeFinish` for the reply slot, together with the delegate
events its `on_finish_` invocation emits.  `DownloadCommand::MaybeFinish`
invokes `on_finish_(index_, buffer(), length())` before returning `true`;
`EraseCommand::MaybeFinish` never invokes its callback. -/
def ReplyCommand.MaybeFinish (rc : ReplyCommand) : Bool × List Event :=
  match rc with
  | .download kind c =>
    if c.MaybeFinish then
      (true,
       match kind with
       | .directory => directoryOnFinish c.buf
       | .file => [.didDownloadFile c.index c.buf])
    else (false, [])
  | .erase c => (c.MaybeFinish, [])

/-- The manager's two command slots (`command_`, `response_`). -/
structure ManagerState where
  command : Option SetTimeCommand
  response : Option ReplyCommand
  deriving DecidableEq, Repr

/-- A fresh manager: both slots empty. -/
def ManagerState.initial : ManagerState := ⟨none, none⟩

/-- Source `Manager::WritePacket(packet, wait_for_ack)` with a succeeding
`delegate_->WriteValue`. -/
def Manager.WritePacket (packet : VLPacket) (wait_for_ack : Bool) : List Event :=
  Event.writeValue (VLWritePacket packet) ::
    (if wait_for_ack then [Event.didStartWaiting] else [])

/-- Source `Manager::DownloadDirectory`. -/
def Manager.DownloadDirectory (_s : ManagerState) : ManagerState × List Event :=
  let c := DownloadCommand.new 0
  ({ command := none, response := some (.download .directory c) },
   Manager.WritePacket c.MakeCommandPacket true)

/-- Source `Manager::DownloadFile`. -/
def Manager.DownloadFile (_s : ManagerState) (index : Nat) :
    ManagerState × List Event :=
  let c := DownloadCommand.new index
  ({ command := none, response := some (.download .file c) },
   Manager.WritePacket c.MakeCommandPacket true)

/-- Source `Manager::EraseFile`. -/
def Manager.EraseFile (_s : ManagerState) (index : Nat) :
    ManagerState × List Event :=
  let c := EraseCommand.new index
  ({ command := none, response := some (.erase c) },
   Manager.WritePacket c.MakeCommandPacket true)

/-- Source `Manager::SetTime`.  The manager converts the POSIX time and installs a
`SetTimeCommand` in the simple slot, clearing the reply slot. -/
def Manager.SetTime (_s : ManagerState) (posix_time : Int) :
    ManagerState × List Event :=
  let c := SetTimeCommand.new (VLGetVivaTimeFromPosix posix_time)
  ({ command := some c, response := none },
   Manager.WritePacket c.MakeCommandPacket true)

/-- Source `Manager::NotifyValue(value, length)`.

Mirrors manager.cpp: with no command in either slot, `Unexpected`; with the
reply slot preferred, parse the bytes (`BadHeader` on failure), feed the
command (`BadPayload` on a negative result), then `MaybeFinish`: on `true`,
`DidFinishWaiting`, the reply-ack write when `ShouldAckReply`, and
`response_.release()` — only the reply slot is cleared.

The `on_finish` events of `MaybeFinish` (`finEvents`) precede
`DidFinishWaiting` because the callback runs inside the `MaybeFinish` call.
For the simple slot, `SetTimeCommand::MaybeFinish` unconditionally invokes
`on_finish_(has_ack_)`; the `did_set_time` wiring of that callback is
modelled from the spec (the snapshot's `Manager::SetTime` predates the
callback parameter). -/
def Manager.NotifyValue (s : ManagerState) (value : List Nat) :
    ManagerState × List Event :=
  match s.command, s.response with
  | none, none =>
    (s, [.didError .unexpected "Unexpected value notification"])
  | _, some rc =>
    match VLReadPacket value with
    | none => (s, [.didError .badHeader (rc.name ++ ": invalid value notification")])
    | some packet =>
      let (rc', r) := rc.ReadPacket packet
      if r < 0 then
        ({ s with response := some rc' },
         [.didError .badPayload (rc.name ++ ": invalid value notification")])
      else
        let (fin, finEvents) := rc'.MaybeFinish
        if fin then
          ({ s with response := none },
           finEvents ++ [.didFinishWaiting] ++
             (if rc'.ShouldAckReply then
                Manager.WritePacket rc'.MakeResponseAckPacket false
              else []))
        else ({ s with response := some rc' }, finEvents)
  | some stc, none =>
    match VLReadPacket value with
    | none => (s, [.didError .badHeader "set time command: invalid value notification"])
    | some packet =>
      let (stc', r) := stc.ReadPacket packet
      if r < 0 then
        ({ s with command := some stc' },
         [.didError .badPayload "set time command: invalid value notification"])
      else
        let finEvents := [Event.didSetTime stc'.has_ack]
        if stc'.MaybeFinish then
          -- `response_.release()` is a no-op here; `command_` keeps the command.
          ({ s with command := some stc' }, finEvents ++ [.didFinishWaiting])
        else ({ s with command := some stc' }, finEvents)

/-- Source `Manager::NotifyTimeout`: only the simple slot is checked and cleared. -/
def Manager.NotifyTimeout (s : ManagerState) : ManagerState × List Event :=
  match s.command with
  | some _ =>
    ({ s with command := none },
     [.didError .unexpected "set time command: timeout waiting for command",
      .didFinishWaiting])
  | none => (s, [])

/-! ## Wire-byte construction for device→host packets

Inbound test vectors: a body with sender 1, receiver 3 and a leading byte
carrying the 3-bit seqno and the 5-bit truncated CRC over the body, exactly
the layout `VLReadPacket` expects. -/

/-- Wire bytes of a device→host packet with the given seqno, command id and
payload. -/
def devicePacketBytes (seqno cmd : Nat) (payload : List Nat) : List Nat :=
  let body := [payload.length, 1, 3, cmd % 256, (cmd / 256) % 256] ++ payload
  ((seqno % 8) * 32 + crc body % 32) :: body

/-- Acceptance of a whole packet sequence by the burst tracker: every
intermediate state reached while folding `Burst::ReadPacket` is valid. -/
def Burst.AcceptsAll (b : Burst) (ps : List VLPacket) : Bool :=
  match ps with
  | [] => true
  | p :: rest =>
    let b' := b.ReadPacket p
    b'.IsValid && b'.AcceptsAll rest

/-! ## Helper lemmas -/

/-- Reading six-byte-headed wire bytes whose leading byte carries the
body CRC in its low five bits succeeds and copies the fields. -/
theorem VLReadPacket_cons (b0 n s r c0 c1 : Nat) (pl : List Nat)
    (hn : n = pl.length) (h14 : pl.length ≤ 14)
    (hcrc : b0 % 32 = crc ([n, s, r, c0, c1] ++ pl) % 32) :
    VLReadPacket (b0 :: n :: s :: r :: c0 :: c1 :: pl) =
      some ⟨b0, n, s, r, c0, c1, pl⟩ := by
  subst hn
  simp only [VLReadPacket, List.length_cons, List.getD_cons_zero,
    List.getD_cons_succ, List.drop_succ_cons, List.drop_zero]
  have h20 : ¬(20 < pl.length + 1 + 1 + 1 + 1 + 1 + 1 ∨
      pl.length + 1 + 1 + 1 + 1 + 1 + 1 < 6 ∨
      pl.length + 1 + 1 + 1 + 1 + 1 + 1 ≠ 6 + pl.length) := by omega
  rw [if_neg h20, if_neg (by simp [hcrc])]

/-- Decoding the wire bytes of `devicePacketBytes` recovers the packet. -/
theorem VLReadPacket_devicePacketBytes (seqno cmd : Nat) (pl : List Nat)
    (h14 : pl.length ≤ 14) :
    VLReadPacket (devicePacketBytes seqno cmd pl) =
      some ⟨(seqno % 8) * 32 +
              crc ([pl.length, 1, 3, cmd % 256, (cmd / 256) % 256] ++ pl) % 32,
            pl.length, 1, 3, cmd % 256, (cmd / 256) % 256, pl⟩ := by
  apply VLReadPacket_cons _ _ _ _ _ _ _ rfl h14
  omega

/-- The sequence number packed by `VLMakePacket` is recovered by
`VLPacketSeqno` when the input seqno is at most 7. -/
theorem VLPacketSeqno_VLMakePacket (seqno cmd : Nat) (pl : List Nat)
    (h : seqno ≤ 7) : VLPacketSeqno (VLMakePacket seqno cmd pl) = seqno := by
  simp only [VLPacketSeqno, VLMakePacket]
  omega

/-- The seqno of a device-built inbound packet. -/
theorem VLPacketSeqno_device (b : Nat) (n s r c0 c1 : Nat) (pl : List Nat)
    (seqno : Nat) (hs : seqno ≤ 7)
    (hb : b = (seqno % 8) * 32 + crc ([n, s, r, c0, c1] ++ pl) % 32) :
    VLPacketSeqno ⟨b, n, s, r, c0, c1, pl⟩ = seqno := by
  subst hb
  simp only [VLPacketSeqno]
  omega

/-! ## Claim C5 -/

/-- C5: for every payload of length 0..14, every seqno in 0..7 and every
16-bit command id, serialising `make_packet(seqno, cmd, payload)` to its
`6 + len` wire bytes and decoding them with `read_packet` succeeds and
yields a packet with the same seqno (recoverable as `bytes[0] >> 5`), the
same payload length, sender 3, receiver 1, the same command id and the same
payload bytes. -/
theorem C5_make_write_read_roundtrip (payload : List Nat) (seqno cmd : Nat)
    (hp : payload.length ≤ 14) (hs : seqno ≤ 7) (hc : cmd < 65536) :
    (VLWritePacket (VLMakePacket seqno cmd payload)).length = 6 + payload.length ∧
    ∃ p, VLReadPacket (VLWritePacket (VLMakePacket seqno cmd payload)) = some p ∧
      VLPacketSeqno p = seqno ∧
      (VLWritePacket (VLMakePacket seqno cmd payload)).getD 0 0 / 32 = seqno ∧
      p.payload_length = payload.length ∧ p.sender = 3 ∧ p.receiver = 1 ∧
      p.cmdId = cmd ∧ p.payload = payload := by
  have hw : VLWritePacket (VLMakePacket seqno cmd payload) =
      ((seqno % 8) * 32 +
          crc ([payload.length, 3, 1, cmd % 256, (cmd / 256) % 256] ++ payload) % 32) ::
        payload.length :: 3 :: 1 :: (cmd % 256) :: ((cmd / 256) % 256) :: payload := by
    simp [VLWritePacket, VLMakePacket]
  rw [hw]
  refine ⟨by simp; omega, _,
    VLReadPacket_cons _ _ _ _ _ _ _ rfl hp (by omega), ?_, ?_, rfl, rfl, rfl, ?_, rfl⟩
  · simp only [VLPacketSeqno]
    omega
  · simp only [List.getD_cons_zero]
    omega
  · simp only [VLPacket.cmdId]
    omega

/-- Witness for C5 at seqno 5, command id 0x1234, payload `[1, 2]`. -/
theorem C5_make_write_read_roundtrip_witness :
    (VLWritePacket (VLMakePacket 5 4660 [1, 2])).length = 6 + [1, 2].length ∧
    ∃ p, VLReadPacket (VLWritePacket (VLMakePacket 5 4660 [1, 2])) = some p ∧
      VLPacketSeqno p = 5 ∧
      (VLWritePacket (VLMakePacket 5 4660 [1, 2])).getD 0 0 / 32 = 5 ∧
      p.payload_length = [1, 2].length ∧ p.sender = 3 ∧ p.receiver = 1 ∧
      p.cmdId = 4660 ∧ p.payload = [1, 2] :=
  C5_make_write_read_roundtrip [1, 2] 5 4660 (by decide) (by decide) (by decide)

/-! ## Claim C1 -/

/-- C1 counterexample: from the empty burst state, a reply packet whose
observed sequence number is 1 is NOT accepted — the tracker moves to the
invalid sentinel state 8, so the claimed acceptance sequence starting at 1
is rejected at its very first step. -/
theorem C1_counterexample :
    VLPacketSeqno (VLMakePacket 1 kCommandDownloadReply [0]) = 1 ∧
    Burst.empty.IsEmpty = true ∧
    Burst.empty.ReadPacket (VLMakePacket 1 kCommandDownloadReply [0]) =
      ⟨kSeqnoInvalid⟩ ∧
    (Burst.empty.ReadPacket (VLMakePacket 1 kCommandDownloadReply [0])).IsValid =
      false := by decide

/-- C1 (amended): from the empty state only a packet with observed seqno 0
(or the terminal 7) is accepted: seqno 0 is accepted and the next expected
value becomes 1; after accepting k in 0..6 the next expected value is
`(k mod 6) + 1`; and the burst acceptance sequence
`0,1,2,3,4,5,6,1,2,3,4,5,6,7` is accepted at every step. -/
theorem C1_burst_acceptance :
    (∀ p : VLPacket, VLPacketSeqno p = 0 →
        Burst.empty.ReadPacket p = ⟨1⟩ ∧ (Burst.empty.ReadPacket p).IsValid = true) ∧
    (∀ (b : Burst) (k : Nat) (p : VLPacket), k ≤ 6 → b.seqno = k →
        VLPacketSeqno p = k →
        b.ReadPacket p = ⟨(k % 6) + 1⟩ ∧ (b.ReadPacket p).IsValid = true) ∧
    (∀ p0 p1 p2 p3 p4 p5 p6 p7 : VLPacket,
        VLPacketSeqno p0 = 0 → VLPacketSeqno p1 = 1 → VLPacketSeqno p2 = 2 →
        VLPacketSeqno p3 = 3 → VLPacketSeqno p4 = 4 → VLPacketSeqno p5 = 5 →
        VLPacketSeqno p6 = 6 → VLPacketSeqno p7 = 7 →
        Burst.AcceptsAll Burst.empty
          [p0, p1, p2, p3, p4, p5, p6, p1, p2, p3, p4, p5, p6, p7] = true) := by
  refine ⟨?_, ?_, ?_⟩
  · intro p hp
    simp [Burst.ReadPacket, Burst.empty, VLDoesSeqnoMatch, hp, kVLSeqnoEnd,
      kSeqnoInvalid, VLGetNextSeqno, Burst.IsValid]
  · intro b k p hk hb hp
    have h7 : ¬(k = 7) := by omega
    have h8 : ¬(k % 6 + 1 = 8) := by omega
    have h9 : ¬(k % 6 = 7) := by omega
    simp [Burst.ReadPacket, VLDoesSeqnoMatch, hb, hp, kVLSeqnoEnd, h7,
      VLGetNextSeqno, Burst.IsValid, kSeqnoInvalid, h8, h9]
  · intro p0 p1 p2 p3 p4 p5 p6 p7 h0 h1 h2 h3 h4 h5 h6 h7
    simp [Burst.AcceptsAll, Burst.ReadPacket, Burst.empty, VLDoesSeqnoMatch,
      h0, h1, h2, h3, h4, h5, h6, h7, kVLSeqnoEnd, kSeqnoInvalid,
      VLGetNextSeqno, Burst.IsValid]

/-- Witness for C1: the amended acceptance sequence on concretely built
packets. -/
theorem C1_burst_acceptance_witness :
    Burst.AcceptsAll Burst.empty
      [VLMakePacket 0 3 [], VLMakePacket 1 3 [], VLMakePacket 2 3 [],
       VLMakePacket 3 3 [], VLMakePacket 4 3 [], VLMakePacket 5 3 [],
       VLMakePacket 6 3 [], VLMakePacket 1 3 [], VLMakePacket 2 3 [],
       VLMakePacket 3 3 [], VLMakePacket 4 3 [], VLMakePacket 5 3 [],
       VLMakePacket 6 3 [], VLMakePacket 7 3 []] = true :=
  C1_burst_acceptance.2.2 _ _ _ _ _ _ _ _ (by decide) (by decide) (by decide)
    (by decide) (by decide) (by decide) (by decide) (by decide)

/-! ## Claim C10 -/

/-- C10: the invalid burst state 8 is not absorbing: a packet with observed
seqno 7 moves it to the ended state 7 (valid and ended), while every
observed seqno in 0..6 keeps it invalid. -/
theorem C10_invalid_state_not_absorbing :
    (∀ p : VLPacket, VLPacketSeqno p = 7 →
        Burst.ReadPacket ⟨kSeqnoInvalid⟩ p = ⟨kVLSeqnoEnd⟩ ∧
        (Burst.ReadPacket ⟨kSeqnoInvalid⟩ p).IsValid = true ∧
        (Burst.ReadPacket ⟨kSeqnoInvalid⟩ p).HasEnded = true) ∧
    (∀ (s : Nat) (p : VLPacket), s ≤ 6 → VLPacketSeqno p = s →
        Burst.ReadPacket ⟨kSeqnoInvalid⟩ p = ⟨kSeqnoInvalid⟩) := by
  constructor
  · intro p hp
    simp [Burst.ReadPacket, VLDoesSeqnoMatch, hp, kVLSeqnoEnd, kSeqnoInvalid,
      Burst.IsValid, Burst.HasEnded]
  · intro s p hs hp
    have h1 : ¬(s = 8) := by omega
    have h2 : ¬(s = 7) := by omega
    simp [Burst.ReadPacket, VLDoesSeqnoMatch, hp, kVLSeqnoEnd, kSeqnoInvalid,
      h1, h2]

/-- Witness for C10 at observed seqnos 7 and 3. -/
theorem C10_invalid_state_not_absorbing_witness :
    Burst.ReadPacket ⟨kSeqnoInvalid⟩ (VLMakePacket 7 1 []) = ⟨kVLSeqnoEnd⟩ ∧
    Burst.ReadPacket ⟨kSeqnoInvalid⟩ (VLMakePacket 3 1 []) = ⟨kSeqnoInvalid⟩ :=
  ⟨(C10_invalid_state_not_absorbing.1 _ (by decide)).1,
   C10_invalid_state_not_absorbing.2 3 _ (by decide) (by decide)⟩

/-! ## Claim C8 -/

/-- C8 counterexample: at `t = 631065600 + 2^32` (which satisfies the
claim's hypothesis `t ≥ 631065600`) the round trip collapses to the epoch,
so the claim fails without an upper bound on `t`. -/
theorem C8_counterexample :
    VLGetPosixTimeFromViva (VLGetVivaTimeFromPosix (631065600 + 2 ^ 32)) ≠
      631065600 + 2 ^ 32 := by
  norm_num [VLGetVivaTimeFromPosix, VLGetPosixTimeFromViva, kAntEpoch]

/-- C8 (amended): `to_posix(to_device(t)) = t` for every POSIX time `t`
with `631065600 ≤ t < 631065600 + 2^32`. -/
theorem C8_time_roundtrip (t : Int) (h1 : 631065600 ≤ t)
    (h2 : t < 631065600 + 2 ^ 32) :
    VLGetPosixTimeFromViva (VLGetVivaTimeFromPosix t) = t := by
  simp only [VLGetVivaTimeFromPosix, VLGetPosixTimeFromViva, kAntEpoch]
  norm_num at h2 ⊢
  omega

/-- Witness for C8 at `t = 1600000000`. -/
theorem C8_time_roundtrip_witness :
    VLGetPosixTimeFromViva (VLGetVivaTimeFromPosix 1600000000) = 1600000000 :=
  C8_time_roundtrip 1600000000 (by norm_num) (by norm_num)

/-! ## Claim C6 -/

/-- Lists of length at least six start with six cons cells. -/
theorem exists_cons6 : ∀ (bs : List Nat), 6 ≤ bs.length →
    ∃ a b c d e f tl, bs = a :: b :: c :: d :: e :: f :: tl
  | _ :: _ :: _ :: _ :: _ :: _ :: tl, _ =>
    ⟨_, _, _, _, _, _, tl, rfl⟩
  | [], h => absurd h (by simp)
  | [_], h => absurd h (by simp)
  | [_, _], h => absurd h (by simp)
  | [_, _, _], h => absurd h (by simp)
  | [_, _, _, _], h => absurd h (by simp)
  | [_, _, _, _, _], h => absurd h (by simp)

/-- C6 counterexample: changing exactly one byte of a valid packet's wire
serialisation — byte 0, altered only in its sequence-number bits — yields
different bytes that `read_packet` still accepts. -/
theorem C6_counterexample :
    (VLReadPacket (VLWritePacket (VLMakePacket 0 11 []))).isSome = true ∧
    ((VLWritePacket (VLMakePacket 0 11 [])).set 0
        ((VLWritePacket (VLMakePacket 0 11 [])).getD 0 0 + 32)).length =
      (VLWritePacket (VLMakePacket 0 11 [])).length ∧
    ((VLWritePacket (VLMakePacket 0 11 [])).set 0
        ((VLWritePacket (VLMakePacket 0 11 [])).getD 0 0 + 32)).getD 0 0 ≠
      (VLWritePacket (VLMakePacket 0 11 [])).getD 0 0 ∧
    ((VLWritePacket (VLMakePacket 0 11 [])).set 0
        ((VLWritePacket (VLMakePacket 0 11 [])).getD 0 0 + 32)).drop 1 =
      (VLWritePacket (VLMakePacket 0 11 [])).drop 1 ∧
    (VLReadPacket ((VLWritePacket (VLMakePacket 0 11 [])).set 0
        ((VLWritePacket (VLMakePacket 0 11 [])).getD 0 0 + 32))).isSome =
      true := by decide

/-- C6 (amended): for every valid packet, corrupting the payload-length
byte (byte 1) always makes `read_packet` fail, and corrupting byte 0 makes
it fail exactly when the corruption changes the low five (CRC) bits — a
change confined to the three sequence-number bits is accepted, so not every
single-byte corruption is detected. -/
theorem C6_single_byte_corruption (bs : List Nat) (p : VLPacket)
    (hread : VLReadPacket bs = some p) (b' : Nat) :
    (b' ≠ bs.getD 1 0 → VLReadPacket (bs.set 1 b') = none) ∧
    (b' % 32 ≠ bs.getD 0 0 % 32 → VLReadPacket (bs.set 0 b') = none) ∧
    (b' % 32 = bs.getD 0 0 % 32 →
      VLReadPacket (bs.set 0 b') = some { p with crc := b' }) := by
  obtain ⟨a, b, c, d, e, f, tl, rfl⟩ := exists_cons6 bs (by
    by_contra hl
    push_neg at hl
    rw [VLReadPacket, if_pos (by omega)] at hread
    exact Option.noConfusion hread)
  rw [VLReadPacket] at hread
  simp only [List.length_cons, List.getD_cons_zero, List.getD_cons_succ,
    List.drop_succ_cons, List.drop_zero] at hread ⊢
  split at hread
  · exact Option.noConfusion hread
  · rename_i hcond
    split at hread
    · exact Option.noConfusion hread
    · rename_i hcrc
      rw [Option.some_inj] at hread
      subst hread
      push_neg at hcond hcrc
      refine ⟨fun hb' => ?_, fun hb' => ?_, fun hb' => ?_⟩
      · rw [show (a :: b :: c :: d :: e :: f :: tl).set 1 b' =
            a :: b' :: c :: d :: e :: f :: tl from rfl]
        rw [VLReadPacket, if_pos (by
          simp only [List.length_cons, List.getD_cons_zero, List.getD_cons_succ]
          omega)]
      · rw [show (a :: b :: c :: d :: e :: f :: tl).set 0 b' =
            b' :: b :: c :: d :: e :: f :: tl from rfl]
        rw [VLReadPacket, if_neg (by
          simp only [List.length_cons, List.getD_cons_zero, List.getD_cons_succ]
          omega)]
        simp only [List.getD_cons_zero, List.getD_cons_succ, List.drop_succ_cons,
          List.drop_zero]
        rw [if_pos (by omega)]
      · rw [show (a :: b :: c :: d :: e :: f :: tl).set 0 b' =
            b' :: b :: c :: d :: e :: f :: tl from rfl]
        rw [VLReadPacket, if_neg (by
          simp only [List.length_cons, List.getD_cons_zero, List.getD_cons_succ]
          omega)]
        simp only [List.getD_cons_zero, List.getD_cons_succ, List.drop_succ_cons,
          List.drop_zero]
        rw [if_neg (by omega)]

/-- Witness for C6 (amended): a corrupted length byte on a concrete valid
packet is rejected. -/
theorem C6_single_byte_corruption_witness :
    VLReadPacket ((VLWritePacket (VLMakePacket 0 11 [])).set 1 9) = none :=
  (C6_single_byte_corruption (VLWritePacket (VLMakePacket 0 11 []))
      ⟨6, 0, 3, 1, 11, 0, []⟩ (by decide) 9).1 (by decide)

/-! ## Claim C7 -/

/-- Decoding a 16-byte header prefix ignores appended bytes. -/
theorem decodeDirectoryHeader_append (h rest : List Nat) (hl : h.length = 16) :
    decodeDirectoryHeader (h ++ rest) = decodeDirectoryHeader h := by
  simp only [decodeDirectoryHeader, OSReadLittleInt32]
  rw [List.getD_append _ _ _ _ (by omega), List.getD_append _ _ _ _ (by omega),
    List.getD_append _ _ _ _ (by omega), List.getD_append _ _ _ _ (by omega),
    List.getD_append _ _ _ _ (by omega), List.getD_append _ _ _ _ (by omega),
    List.getD_append _ _ _ _ (by omega)]

/-- Decoding a 16-byte entry prefix ignores appended bytes. -/
theorem decodeDirectoryEntry_append (b rest : List Nat) (hl : b.length = 16) :
    decodeDirectoryEntry (b ++ rest) = decodeDirectoryEntry b := by
  simp only [decodeDirectoryEntry, OSReadLittleInt32, OSReadLittleInt16]
  rw [List.getD_append _ _ _ _ (by omega), List.getD_append _ _ _ _ (by omega),
    List.getD_append _ _ _ _ (by omega), List.getD_append _ _ _ _ (by omega),
    List.getD_append _ _ _ _ (by omega), List.getD_append _ _ _ _ (by omega),
    List.getD_append _ _ _ _ (by omega), List.getD_append _ _ _ _ (by omega),
    List.getD_append _ _ _ _ (by omega), List.getD_append _ _ _ _ (by omega),
    List.getD_append _ _ _ _ (by omega), List.getD_append _ _ _ _ (by omega),
    List.getD_append _ _ _ _ (by omega), List.getD_append _ _ _ _ (by omega),
    List.getD_append _ _ _ _ (by omega), List.getD_append _ _ _ _ (by omega)]

/-- Reading a valid 16-byte header still succeeds with entry bytes
appended. -/
theorem VLReadDirectoryHeader_append (h rest : List Nat)
    (hd : VLDirectoryHeader) (hl : h.length = 16)
    (hh : VLReadDirectoryHeader h = some hd) :
    VLReadDirectoryHeader (h ++ rest) = some hd := by
  rw [VLReadDirectoryHeader] at hh ⊢
  rw [if_neg (by omega)] at hh
  rw [if_neg (by simp only [List.length_append, hl]; omega),
    decodeDirectoryHeader_append h rest hl]
  exact hh

/-- Source `Directory::Reader::Read` on a valid header followed by exactly
two 16-byte entries produces the two successive `emplace`s. -/
theorem Reader_Read_two_entries (hd : VLDirectoryHeader) (h b1 b2 : List Nat)
    (hh : VLReadDirectoryHeader h = some hd) (hl : h.length = 16)
    (l1 : b1.length = 16) (l2 : b2.length = 16) :
    Directory.Reader.Read (h ++ (b1 ++ b2)) =
      some (hd,
        mapEmplace
          (mapEmplace [] (decodeDirectoryEntry b1).index (decodeDirectoryEntry b1))
          (decodeDirectoryEntry b2).index (decodeDirectoryEntry b2)) := by
  have hne1 : (b1 ++ b2).isEmpty = false := by
    rcases b1 with _ | ⟨x, xs⟩
    · simp at l1
    · rfl
  have hne2 : b2.isEmpty = false := by
    rcases b2 with _ | ⟨x, xs⟩
    · simp at l2
    · rfl
  have hr1 : VLReadNextDirectoryEntry (b1 ++ b2) = some (decodeDirectoryEntry b1) := by
    rw [VLReadNextDirectoryEntry, if_neg (by simp [l1, l2]),
      decodeDirectoryEntry_append b1 b2 l1]
  have hr2 : VLReadNextDirectoryEntry b2 = some (decodeDirectoryEntry b2) := by
    rw [VLReadNextDirectoryEntry, if_neg (by omega)]
  have hdrop : (h ++ (b1 ++ b2)).drop 16 = b1 ++ b2 := by
    rw [← hl, List.drop_left]
  have hdrop1 : (b1 ++ b2).drop 16 = b2 := by
    rw [← l1, List.drop_left]
  have hdrop2 : b2.drop 16 = ([] : List Nat) := by
    rw [← l2, List.drop_length]
  rw [Directory.Reader.Read, VLReadDirectoryHeader_append h (b1 ++ b2) hd hl hh]
  rw [hdrop]
  rw [readEntriesLoop.eq_def]
  simp only [hne1, hr1, hdrop1, Bool.false_eq_true, if_false]
  rw [readEntriesLoop.eq_def]
  simp only [hne2, hr2, hdrop2, Bool.false_eq_true, if_false]
  rw [readEntriesLoop.eq_def]
  simp

/-- C7 counterexample: a directory blob with a valid header and two entries
that share index 1 (file lengths 4 and 9 respectively) reads back to a map
holding the EARLIER entry (length 4): `std::map::emplace` does not
overwrite, so the later entry does not replace the earlier one. -/
theorem C7_counterexample :
    Directory.Reader.Read
        ([1, 16, 0, 0, 0, 0, 0, 0, 0, 0, 0, 0, 0, 0, 0, 0] ++
          ([1, 0, 128, 4, 1, 0, 0, 96, 4, 0, 0, 0, 0, 0, 0, 0] ++
           [1, 0, 128, 4, 1, 0, 0, 96, 9, 0, 0, 0, 0, 0, 0, 0])) =
      some (⟨1, 16, 0, 0⟩, [(1, ⟨1, 128, 4, 1, 0, 96, 4, 0⟩)]) ∧
    (⟨1, 128, 4, 1, 0, 96, 4, 0⟩ : VLRawDirectoryEntry) ≠
      ⟨1, 128, 4, 1, 0, 96, 9, 0⟩ := by
  constructor
  · rw [Reader_Read_two_entries ⟨1, 16, 0, 0⟩ _ _ _ (by decide) (by decide)
      (by decide) (by decide)]
    decide
  · decide

/-- Members of an emplaced map come from the old map or are the new pair. -/
theorem mem_mapEmplace (m : List (Nat × VLRawDirectoryEntry)) (k : Nat)
    (v : VLRawDirectoryEntry) (x : Nat × VLRawDirectoryEntry)
    (hx : x ∈ mapEmplace m k v) : x ∈ m ∨ x = (k, v) := by
  induction m with
  | nil =>
    simp only [mapEmplace, List.mem_singleton] at hx
    exact Or.inr hx
  | cons hd tl ih =>
    obtain ⟨k', v'⟩ := hd
    by_cases h1 : k < k'
    · simp only [mapEmplace, if_pos h1, List.mem_cons] at hx
      rcases hx with rfl | hx | hx
      · exact Or.inr rfl
      · exact Or.inl (by simp [hx])
      · exact Or.inl (by simp [hx])
    · by_cases h2 : k = k'
      · simp only [mapEmplace, if_neg h1, if_pos h2] at hx
        exact Or.inl hx
      · simp only [mapEmplace, if_neg h1, if_neg h2, List.mem_cons] at hx
        rcases hx with rfl | hx
        · exact Or.inl (by simp)
        · rcases ih hx with hx' | hx'
          · exact Or.inl (by simp [hx'])
          · exact Or.inr hx'

/-- The emplacement used by the reader preserves strictly-ascending keys
(the `std::map` ordering invariant). -/
theorem pairwise_mapEmplace (m : List (Nat × VLRawDirectoryEntry)) (k : Nat)
    (v : VLRawDirectoryEntry)
    (h : m.Pairwise (fun a b => a.1 < b.1)) :
    (mapEmplace m k v).Pairwise (fun a b => a.1 < b.1) := by
  induction m with
  | nil => simp [mapEmplace]
  | cons hd tl ih =>
    obtain ⟨k', v'⟩ := hd
    rw [List.pairwise_cons] at h
    obtain ⟨h1, h2⟩ := h
    by_cases hlt : k < k'
    · simp only [mapEmplace, if_pos hlt]
      refine List.Pairwise.cons ?_ (List.Pairwise.cons h1 h2)
      intro x hx
      rcases List.mem_cons.mp hx with rfl | hx
      · exact hlt
      · exact lt_trans hlt (h1 x hx)
    · by_cases heq : k = k'
      · simp only [mapEmplace, if_neg hlt, if_pos heq]
        exact List.Pairwise.cons h1 h2
      · simp only [mapEmplace, if_neg hlt, if_neg heq]
        refine List.Pairwise.cons ?_ (ih h2)
        intro x hx
        rcases mem_mapEmplace tl k v x hx with hx' | rfl
        · exact h1 x hx'
        · omega

/-- Lookup misses every map whose keys all exceed the probe. -/
theorem mapFind_eq_none (m : List (Nat × VLRawDirectoryEntry)) (k : Nat)
    (h : ∀ x ∈ m, k < x.1) : mapFind m k = none := by
  induction m with
  | nil => rfl
  | cons hd tl ih =>
    obtain ⟨k', v'⟩ := hd
    have hk : k < k' := h (k', v') (by simp)
    simp only [mapFind, if_neg (by omega : ¬k = k')]
    exact ih fun x hx => h x (by simp [hx])

/-- On a key-sorted map, emplacement keeps an existing binding: the lookup
after `emplace m k v` is the old binding when present, else `v`. -/
theorem mapFind_mapEmplace_self (m : List (Nat × VLRawDirectoryEntry))
    (k : Nat) (v : VLRawDirectoryEntry)
    (h : m.Pairwise (fun a b => a.1 < b.1)) :
    mapFind (mapEmplace m k v) k = some ((mapFind m k).getD v) := by
  induction m with
  | nil => simp [mapEmplace, mapFind]
  | cons hd tl ih =>
    obtain ⟨k', v'⟩ := hd
    rw [List.pairwise_cons] at h
    obtain ⟨h1, h2⟩ := h
    by_cases hlt : k < k'
    · simp only [mapEmplace, if_pos hlt, mapFind, if_pos rfl]
      have htl : mapFind tl k = none :=
        mapFind_eq_none _ _ fun x hx => lt_trans hlt (h1 x hx)
      simp [if_neg (by omega : ¬k = k'), htl]
    · by_cases heq : k = k'
      · subst heq
        simp [mapEmplace, if_neg hlt, mapFind]
      · simp only [mapEmplace, if_neg hlt, if_neg heq, mapFind,
          if_neg heq]
        exact ih h2

/-- Emplacement does not disturb lookups at other keys. -/
theorem mapFind_mapEmplace_ne (m : List (Nat × VLRawDirectoryEntry))
    (k : Nat) (v : VLRawDirectoryEntry) (q : Nat) (h : q ≠ k) :
    mapFind (mapEmplace m k v) q = mapFind m q := by
  induction m with
  | nil => simp [mapEmplace, mapFind, h]
  | cons hd tl ih =>
    obtain ⟨k', v'⟩ := hd
    by_cases h1 : k < k'
    · simp only [mapEmplace, if_pos h1, mapFind, if_neg h]
    · by_cases h2 : k = k'
      · simp only [mapEmplace, if_neg h1, if_pos h2]
      · simp only [mapEmplace, if_neg h1, if_neg h2, mapFind]
        by_cases h3 : q = k'
        · simp [h3]
        · simp only [if_neg h3]
          exact ih

/-- Folding `emplace` keeps every map strictly key-sorted. -/
theorem pairwise_emplaceAll (bs : List (List Nat))
    (m : List (Nat × VLRawDirectoryEntry))
    (h : m.Pairwise (fun a b => a.1 < b.1)) :
    (emplaceAll bs m).Pairwise (fun a b => a.1 < b.1) := by
  induction bs generalizing m with
  | nil => exact h
  | cons b bs ih =>
    exact ih _ (pairwise_mapEmplace _ _ _ h)

/-- Looking up a key after folding `emplace` over entry records finds the
pre-existing binding when there is one, and otherwise the FIRST record in
the list whose index field matches: later duplicates never replace earlier
entries. -/
theorem mapFind_emplaceAll (bs : List (List Nat))
    (m : List (Nat × VLRawDirectoryEntry))
    (hm : m.Pairwise (fun a b => a.1 < b.1)) (k : Nat) :
    mapFind (emplaceAll bs m) k =
      ((mapFind m k).orElse fun _ =>
        (bs.map decodeDirectoryEntry).find? fun e => e.index == k) := by
  induction bs generalizing m with
  | nil =>
    cases hf : mapFind m k <;> simp [emplaceAll, hf, Option.orElse]
  | cons b bs ih =>
    have hstep : emplaceAll (b :: bs) m =
        emplaceAll bs
          (mapEmplace m (decodeDirectoryEntry b).index (decodeDirectoryEntry b)) :=
      rfl
    rw [hstep, ih _ (pairwise_mapEmplace _ _ _ hm)]
    by_cases hk : k = (decodeDirectoryEntry b).index
    · rw [hk, mapFind_mapEmplace_self m _ _ hm]
      cases hf : mapFind m (decodeDirectoryEntry b).index <;>
        simp [hf, Option.orElse, List.find?]
    · rw [mapFind_mapEmplace_ne m _ _ k hk]
      cases hf : mapFind m k <;>
        simp [hf, Option.orElse, List.find?,
          beq_false_of_ne (Ne.symm hk)]

/-- The reader's entry loop over any concatenation of 16-byte records is
the `emplace` fold. -/
theorem readEntriesLoop_join (bs : List (List Nat))
    (m : List (Nat × VLRawDirectoryEntry)) (hbs : ∀ b ∈ bs, b.length = 16) :
    readEntriesLoop bs.flatten m = some (emplaceAll bs m) := by
  induction bs generalizing m with
  | nil =>
    rw [readEntriesLoop.eq_def]
    simp [emplaceAll]
  | cons b bs ih =>
    have hb : b.length = 16 := hbs b (by simp)
    have hbs' : ∀ x ∈ bs, x.length = 16 := fun x hx => hbs x (by simp [hx])
    have hjoin : (b :: bs).flatten = b ++ bs.flatten := by simp
    have hne : (b ++ bs.flatten).isEmpty = false := by
      rcases b with _ | ⟨x, xs⟩
      · simp at hb
      · rfl
    have hr : VLReadNextDirectoryEntry (b ++ bs.flatten) =
        some (decodeDirectoryEntry b) := by
      rw [VLReadNextDirectoryEntry,
        if_neg (by simp only [List.length_append, hb]; omega),
        decodeDirectoryEntry_append b bs.flatten hb]
    have hdrop : (b ++ bs.flatten).drop 16 = bs.flatten := by
      rw [← hb, List.drop_left]
    rw [hjoin, readEntriesLoop.eq_def]
    simp only [hne, hr, hdrop, Bool.false_eq_true, if_false]
    rw [ih _ hbs']
    rfl

/-- C7 (amended): for every blob consisting of a valid 16-byte header
followed by any number of 16-byte entries, `read_all` succeeds and
populates the index-keyed mapping folded by `emplace`; the binding at every
index is the FIRST entry (in blob order) carrying that index, so when two
entries — adjacent or not — share an index, the earlier entry is kept and
the later duplicate is discarded (`emplace` does not overwrite). -/
theorem C7_duplicate_index_keeps_first (hd : VLDirectoryHeader)
    (h : List Nat) (bs : List (List Nat))
    (hh : VLReadDirectoryHeader h = some hd) (hl : h.length = 16)
    (hbs : ∀ b ∈ bs, b.length = 16) :
    Directory.Reader.Read (h ++ bs.flatten) = some (hd, emplaceAll bs []) ∧
    ∀ k, mapFind (emplaceAll bs []) k =
      ((bs.map decodeDirectoryEntry).find? fun e => e.index == k) := by
  constructor
  · have hdrop : (h ++ bs.flatten).drop 16 = bs.flatten := by
      rw [← hl, List.drop_left]
    rw [Directory.Reader.Read, VLReadDirectoryHeader_append h bs.flatten hd hl hh,
      hdrop, readEntriesLoop_join bs [] hbs]
  · intro k
    have hfold := mapFind_emplaceAll bs [] (by simp) k
    simpa [mapFind, Option.orElse] using hfold

/-- Witness for C7 (amended) on a concrete three-entry blob whose first and
third entries carry index 2 (a non-adjacent duplicate): the mapping holds
the first entry at index 2 and the second entry at index 1. -/
theorem C7_duplicate_index_keeps_first_witness :
    (Directory.Reader.Read
        ([1, 16, 0, 0, 0, 0, 0, 0, 0, 0, 0, 0, 0, 0, 0, 0] ++
          [[2, 0, 128, 4, 2, 0, 0, 96, 7, 0, 0, 0, 0, 0, 0, 0],
           [1, 0, 128, 4, 1, 0, 0, 96, 5, 0, 0, 0, 0, 0, 0, 0],
           [2, 0, 128, 4, 2, 0, 0, 96, 8, 0, 0, 0, 0, 0, 0, 0]].flatten) =
      some (⟨1, 16, 0, 0⟩,
        emplaceAll
          [[2, 0, 128, 4, 2, 0, 0, 96, 7, 0, 0, 0, 0, 0, 0, 0],
           [1, 0, 128, 4, 1, 0, 0, 96, 5, 0, 0, 0, 0, 0, 0, 0],
           [2, 0, 128, 4, 2, 0, 0, 96, 8, 0, 0, 0, 0, 0, 0, 0]] [])) ∧
    mapFind
        (emplaceAll
          [[2, 0, 128, 4, 2, 0, 0, 96, 7, 0, 0, 0, 0, 0, 0, 0],
           [1, 0, 128, 4, 1, 0, 0, 96, 5, 0, 0, 0, 0, 0, 0, 0],
           [2, 0, 128, 4, 2, 0, 0, 96, 8, 0, 0, 0, 0, 0, 0, 0]] []) 2 =
      (([[2, 0, 128, 4, 2, 0, 0, 96, 7, 0, 0, 0, 0, 0, 0, 0],
         [1, 0, 128, 4, 1, 0, 0, 96, 5, 0, 0, 0, 0, 0, 0, 0],
         [2, 0, 128, 4, 2, 0, 0, 96, 8, 0, 0, 0, 0, 0, 0, 0]].map
          decodeDirectoryEntry).find? fun e => e.index == 2) :=
  ⟨(C7_duplicate_index_keeps_first ⟨1, 16, 0, 0⟩
      [1, 16, 0, 0, 0, 0, 0, 0, 0, 0, 0, 0, 0, 0, 0, 0]
      [[2, 0, 128, 4, 2, 0, 0, 96, 7, 0, 0, 0, 0, 0, 0, 0],
       [1, 0, 128, 4, 1, 0, 0, 96, 5, 0, 0, 0, 0, 0, 0, 0],
       [2, 0, 128, 4, 2, 0, 0, 96, 8, 0, 0, 0, 0, 0, 0, 0]]
      (by decide) (by decide) (by decide)).1,
   (C7_duplicate_index_keeps_first ⟨1, 16, 0, 0⟩
      [1, 16, 0, 0, 0, 0, 0, 0, 0, 0, 0, 0, 0, 0, 0, 0]
      [[2, 0, 128, 4, 2, 0, 0, 96, 7, 0, 0, 0, 0, 0, 0, 0],
       [1, 0, 128, 4, 1, 0, 0, 96, 5, 0, 0, 0, 0, 0, 0, 0],
       [2, 0, 128, 4, 2, 0, 0, 96, 8, 0, 0, 0, 0, 0, 0, 0]]
      (by decide) (by decide) (by decide)).2 2⟩

/-! ## Negative results leave command state unchanged

In every source path that returns a negative error, the `return` statement
precedes all member mutations; these lemmas record that fact for each
command. -/

/-- Every mutating branch of `DownloadCommand`'s packet reader returns a
non-negative result. -/
theorem downloadReadPacket_unchanged_or_nonneg (c : DownloadCommand)
    (p : VLPacket) : (c.ReadPacket p).1 = c ∨ 0 ≤ (c.ReadPacket p).2 := by
  unfold DownloadCommand.ReadPacket DownloadCommand.ReadReply
    DownloadCommand.ReadAck
  simp only []
  split_ifs <;> simp [Int.natCast_nonneg]

/-- A negative result from `DownloadCommand`'s packet reader leaves the
command unchanged. -/
theorem downloadReadPacket_neg (c : DownloadCommand) (p : VLPacket)
    (h : (c.ReadPacket p).2 < 0) : (c.ReadPacket p).1 = c :=
  (downloadReadPacket_unchanged_or_nonneg c p).resolve_right (by omega)

/-- Every mutating branch of `EraseCommand`'s packet reader returns a
non-negative result. -/
theorem eraseReadPacket_unchanged_or_nonneg (c : EraseCommand)
    (p : VLPacket) : (c.ReadPacket p).1 = c ∨ 0 ≤ (c.ReadPacket p).2 := by
  unfold EraseCommand.ReadPacket EraseCommand.ReadReply EraseCommand.ReadAck
  simp only []
  split_ifs <;> simp

/-- A negative result from `EraseCommand`'s packet reader leaves the
command unchanged. -/
theorem eraseReadPacket_neg (c : EraseCommand) (p : VLPacket)
    (h : (c.ReadPacket p).2 < 0) : (c.ReadPacket p).1 = c :=
  (eraseReadPacket_unchanged_or_nonneg c p).resolve_right (by omega)

/-- Every mutating branch of `SetTimeCommand::ReadPacket` returns a
non-negative result. -/
theorem setTimeReadPacket_unchanged_or_nonneg (c : SetTimeCommand)
    (p : VLPacket) : (c.ReadPacket p).1 = c ∨ 0 ≤ (c.ReadPacket p).2 := by
  unfold SetTimeCommand.ReadPacket
  simp only []
  split_ifs <;> simp

/-- A negative result from `SetTimeCommand::ReadPacket` leaves the command
unchanged. -/
theorem setTimeReadPacket_neg (c : SetTimeCommand) (p : VLPacket)
    (h : (c.ReadPacket p).2 < 0) : (c.ReadPacket p).1 = c :=
  (setTimeReadPacket_unchanged_or_nonneg c p).resolve_right (by omega)

/-- A negative result from the reply slot's packet reader leaves it
unchanged. -/
theorem replyReadPacket_neg (rc : ReplyCommand) (p : VLPacket)
    (h : (rc.ReadPacket p).2 < 0) : (rc.ReadPacket p).1 = rc := by
  cases rc with
  | download kind c =>
    have hd := downloadReadPacket_unchanged_or_nonneg c p
    simp only [ReplyCommand.ReadPacket] at h ⊢
    rcases hd with hd | hd
    · simp [hd]
    · exact absurd h (by omega)
  | erase c =>
    have hd := eraseReadPacket_unchanged_or_nonneg c p
    simp only [ReplyCommand.ReadPacket] at h ⊢
    rcases hd with hd | hd
    · simp [hd]
    · exact absurd h (by omega)

/-! ## Claim C9 -/

/-- C9: whenever `notify_value` reports `BadHeader` (framing/CRC failure)
or `BadPayload` (rejected packet), the in-flight command remains installed
with its state unchanged — the whole manager state is returned untouched —
so subsequent notifications are fed to the same command; in particular any
20-byte input whose CRC bits do not match yields exactly the `BadHeader`
error and an unchanged state. -/
theorem C9_errors_leave_command_installed (s : ManagerState) (value : List Nat) :
    (∀ rc, s.response = some rc → VLReadPacket value = none →
      Manager.NotifyValue s value =
        (s, [.didError .badHeader (rc.name ++ ": invalid value notification")])) ∧
    (∀ rc p, s.response = some rc → VLReadPacket value = some p →
      (rc.ReadPacket p).2 < 0 →
      Manager.NotifyValue s value =
        (s, [.didError .badPayload (rc.name ++ ": invalid value notification")])) ∧
    (∀ stc, s.command = some stc → s.response = none → VLReadPacket value = none →
      Manager.NotifyValue s value =
        (s, [.didError .badHeader "set time command: invalid value notification"])) ∧
    (∀ stc p, s.command = some stc → s.response = none →
      VLReadPacket value = some p → (stc.ReadPacket p).2 < 0 →
      Manager.NotifyValue s value =
        (s, [.didError .badPayload "set time command: invalid value notification"])) ∧
    (∀ rc, s.response = some rc → value.length = 20 →
      value.getD 0 0 % 32 ≠ crc (value.drop 1) % 32 →
      Manager.NotifyValue s value =
        (s, [.didError .badHeader (rc.name ++ ": invalid value notification")])) := by
  obtain ⟨cm, resp⟩ := s
  have main1 : ∀ rc, resp = some rc → VLReadPacket value = none →
      Manager.NotifyValue ⟨cm, resp⟩ value =
        (⟨cm, resp⟩,
         [.didError .badHeader (rc.name ++ ": invalid value notification")]) := by
    intro rc hresp hread
    subst hresp
    cases cm <;> simp [Manager.NotifyValue, hread]
  have main2 : ∀ rc p, resp = some rc → VLReadPacket value = some p →
      (rc.ReadPacket p).2 < 0 →
      Manager.NotifyValue ⟨cm, resp⟩ value =
        (⟨cm, resp⟩,
         [.didError .badPayload (rc.name ++ ": invalid value notification")]) := by
    intro rc p hresp hread hneg
    subst hresp
    have hunch := replyReadPacket_neg rc p hneg
    rcases hrp : rc.ReadPacket p with ⟨rc', r⟩
    rw [hrp] at hneg hunch
    simp only at hneg hunch
    subst hunch
    cases cm <;> simp [Manager.NotifyValue, hread, hrp, hneg]
  refine ⟨main1, main2, ?_, ?_, ?_⟩
  · intro stc hc hresp hread
    subst hc
    subst hresp
    simp [Manager.NotifyValue, hread]
  · intro stc p hc hresp hread hneg
    subst hc
    subst hresp
    have hunch := setTimeReadPacket_neg stc p hneg
    rcases hrp : stc.ReadPacket p with ⟨stc', r⟩
    rw [hrp] at hneg hunch
    simp only at hneg hunch
    subst hunch
    simp [Manager.NotifyValue, hread, hrp, hneg]
  · intro rc hresp hlen hcrc
    refine main1 rc hresp ?_
    rw [VLReadPacket]
    by_cases hld : value.length = 6 + value.getD 1 0
    · rw [if_neg (by omega)]
      simp only []
      rw [if_pos hcrc]
    · rw [if_pos (by omega)]

/-- Witness for C9: a 20-byte all-zero-payload input with mismatched CRC
bits, fed to a manager holding a fresh erase command, yields `BadHeader`
and the unchanged state. -/
theorem C9_errors_leave_command_installed_witness :
    Manager.NotifyValue ⟨none, some (.erase (EraseCommand.new 5))⟩
        [0, 14, 1, 3, 11, 3, 0, 0, 0, 0, 0, 0, 0, 0, 0, 0, 0, 0, 0, 0] =
      (⟨none, some (.erase (EraseCommand.new 5))⟩,
       [.didError .badHeader
          ((ReplyCommand.erase (EraseCommand.new 5)).name ++
            ": invalid value notification")]) :=
  (C9_errors_leave_command_installed ⟨none, some (.erase (EraseCommand.new 5))⟩
      [0, 14, 1, 3, 11, 3, 0, 0, 0, 0, 0, 0, 0, 0, 0, 0, 0, 0, 0, 0]).2.2.2.2
    (.erase (EraseCommand.new 5)) rfl (by decide) (by decide)

/-! ## Claim C2 -/

/-- C2 counterexample: completing a file download emits the completion
callback (`did_download_file`) BEFORE `did_finish_waiting`, because the
callback runs inside `maybe_finish`; the claimed order (callback after
`did_finish_waiting`) is violated on this concrete run. -/
theorem C2_counterexample :
    ((Manager.NotifyValue
        (Manager.NotifyValue (Manager.DownloadFile ManagerState.initial 1).1
            (devicePacketBytes 0 33035 (le16 1 ++ le32 0 ++ le32 1))).1
        (devicePacketBytes 7 779 [42])).2 =
      [Event.didDownloadFile 1 [42], Event.didFinishWaiting]) ∧
    ((Manager.NotifyValue
        (Manager.NotifyValue (Manager.DownloadFile ManagerState.initial 1).1
            (devicePacketBytes 0 33035 (le16 1 ++ le32 0 ++ le32 1))).1
        (devicePacketBytes 7 779 [42])).2.indexOf
          (Event.didDownloadFile 1 [42]) <
      (Manager.NotifyValue
        (Manager.NotifyValue (Manager.DownloadFile ManagerState.initial 1).1
            (devicePacketBytes 0 33035 (le16 1 ++ le32 0 ++ le32 1))).1
        (devicePacketBytes 7 779 [42])).2.indexOf Event.didFinishWaiting) := by
  decide

/-- C2 (amended): within a single `notify_value` call that completes the
in-flight reply command, the order is: the command's `read_packet`, then
the command's own completion callback (it runs inside `maybe_finish`),
then `did_finish_waiting`, then (if `should_ack_reply`) the reply-ack
packet written without a new wait, and finally the reply-slot command is
dropped. -/
theorem C2_finish_order (s : ManagerState) (rc rc' : ReplyCommand)
    (value : List Nat) (p : VLPacket) (r : Int) (evs : List Event)
    (hresp : s.response = some rc) (hread : VLReadPacket value = some p)
    (hrp : rc.ReadPacket p = (rc', r)) (hr : ¬r < 0)
    (hfin : rc'.MaybeFinish = (true, evs)) :
    Manager.NotifyValue s value =
      ({ s with response := none },
       evs ++ [Event.didFinishWaiting] ++
         (if rc'.ShouldAckReply then
            [Event.writeValue (VLWritePacket rc'.MakeResponseAckPacket)]
          else [])) := by
  obtain ⟨cm, resp⟩ := s
  simp only at hresp
  subst hresp
  cases cm <;>
    simp [Manager.NotifyValue, hread, hrp, hr, hfin, Manager.WritePacket]

/-- Witness for C2 (amended): the completing erase reply, concretely. -/
theorem C2_finish_order_witness :
    Manager.NotifyValue ⟨none, some (.erase ⟨5, true, false, false⟩)⟩
        (devicePacketBytes 7 1291 [0]) =
      (⟨none, none⟩,
       [Event.didFinishWaiting,
        Event.writeValue (VLWritePacket (VLMakeAckPacket 1291))]) := by
  have h := C2_finish_order ⟨none, some (.erase ⟨5, true, false, false⟩)⟩
    (.erase ⟨5, true, false, false⟩) (.erase ⟨5, true, false, true⟩)
    (devicePacketBytes 7 1291 [0]) ⟨252, 1, 1, 3, 11, 5, [0]⟩ 0 [] rfl
    (by decide) (by decide) (by decide) (by decide)
  simpa [ReplyCommand.ShouldAckReply, ReplyCommand.MakeResponseAckPacket,
    kCommandEraseReply] using h

/-! ## Claim C3 -/

/-- C3: the full erase scenario.  `erase_file(5)` writes the packet with
command id 0x040b, seqno 7 and payload `[5, 0]` and starts the wait; a
valid device ack (0x840b) is accepted silently; a valid reply (0x050b,
payload `[0]`) finishes the wait and writes the ack packet for 0x050b
without a new wait, dropping the command — but `did_erase_file` is NEVER
invoked (the source never calls the erase command's `on_finish_` and never
sets `is_ok_`), contradicting the claimed `did_erase_file(5, true)`. -/
theorem C3_erase_run :
    ((Manager.EraseFile ManagerState.initial 5).2 =
      [Event.writeValue (VLWritePacket (VLMakePacket 7 1035 [5, 0])),
       Event.didStartWaiting]) ∧
    VLPacketSeqno (VLMakePacket 7 1035 [5, 0]) = 7 ∧
    (VLMakePacket 7 1035 [5, 0]).cmdId = 1035 ∧
    (VLMakePacket 7 1035 [5, 0]).payload = [5, 0] ∧
    ((Manager.NotifyValue (Manager.EraseFile ManagerState.initial 5).1
        (devicePacketBytes 7 33803 [])).2 = []) ∧
    ((Manager.NotifyValue
        (Manager.NotifyValue (Manager.EraseFile ManagerState.initial 5).1
            (devicePacketBytes 7 33803 [])).1
        (devicePacketBytes 7 1291 [0])).2 =
      [Event.didFinishWaiting,
       Event.writeValue (VLWritePacket (VLMakeAckPacket 1291))]) ∧
    ((Manager.NotifyValue
        (Manager.NotifyValue (Manager.EraseFile ManagerState.initial 5).1
            (devicePacketBytes 7 33803 [])).1
        (devicePacketBytes 7 1291 [0])).1 = ⟨none, none⟩) ∧
    (((Manager.EraseFile ManagerState.initial 5).2 ++
        (Manager.NotifyValue (Manager.EraseFile ManagerState.initial 5).1
            (devicePacketBytes 7 33803 [])).2 ++
        (Manager.NotifyValue
            (Manager.NotifyValue (Manager.EraseFile ManagerState.initial 5).1
                (devicePacketBytes 7 33803 [])).1
            (devicePacketBytes 7 1291 [0])).2).all
      (fun e =>
        match e with
        | Event.didEraseFile _ _ => false
        | _ => true) = true) ∧
    Event.didStartWaiting ∉
      (Manager.NotifyValue
          (Manager.NotifyValue (Manager.EraseFile ManagerState.initial 5).1
              (devicePacketBytes 7 33803 [])).1
          (devicePacketBytes 7 1291 [0])).2 := by
  decide

/-! ## Claim C4 -/

/-- C4 counterexample: after a SetTime command receives a valid ack (which
does fire `did_set_time(true)` and `did_finish_waiting`), the manager STILL
holds the command — `notify_value` clears only the reply slot — so a
subsequent notification is fed to the same command again instead of
yielding the `Unexpected` error. -/
theorem C4_counterexample :
    ((Manager.NotifyValue (Manager.SetTime ManagerState.initial 1600000000).1
        (devicePacketBytes 7 33032 [])).1.command ≠ none) ∧
    ((Manager.NotifyValue
        (Manager.NotifyValue (Manager.SetTime ManagerState.initial 1600000000).1
            (devicePacketBytes 7 33032 [])).1
        (devicePacketBytes 7 33032 [])).2 =
      [Event.didSetTime true, Event.didFinishWaiting]) ∧
    (∀ msg,
      Event.didError .unexpected msg ∉
        (Manager.NotifyValue
            (Manager.NotifyValue
                (Manager.SetTime ManagerState.initial 1600000000).1
                (devicePacketBytes 7 33032 [])).1
            (devicePacketBytes 7 33032 [])).2) := by
  refine ⟨by decide, by decide, ?_⟩
  intro msg
  have heq : (Manager.NotifyValue
      (Manager.NotifyValue (Manager.SetTime ManagerState.initial 1600000000).1
          (devicePacketBytes 7 33032 [])).1
      (devicePacketBytes 7 33032 [])).2 =
      [Event.didSetTime true, Event.didFinishWaiting] := by decide
  rw [heq]
  simp

/-- C4 (amended): for a SetTime command, the completion callback fires with
`has_ack` whenever the command's `read_packet` does not return a negative
error: a valid ack fires `did_set_time(true)` followed by
`did_finish_waiting`; a packet failing the from-device direction check
returns a positive error and fires `did_set_time(false)` with no finish; a
negative parse failure (wrong command id) emits `BadPayload` and fires no
callback.  In every case the manager KEEPS holding the command (only the
reply slot is cleared on completion), and no `Unexpected` error is ever
emitted while the command is installed. -/
theorem C4_set_time_completion (s : ManagerState) (stc : SetTimeCommand)
    (value : List Nat) (hc : s.command = some stc) (hn : s.response = none) :
    (∀ p, VLReadPacket value = some p → ReadAck p kCommandSetTime = 0 →
      Manager.NotifyValue s value =
        ({ s with command := some { stc with has_ack := true } },
         [Event.didSetTime true, Event.didFinishWaiting])) ∧
    (∀ p, VLReadPacket value = some p → VLValidatePacketFromViva p = true →
      stc.has_ack = false →
      Manager.NotifyValue s value = (s, [Event.didSetTime false])) ∧
    (∀ p, VLReadPacket value = some p → (stc.ReadPacket p).2 < 0 →
      Manager.NotifyValue s value =
        (s, [Event.didError .badPayload
              "set time command: invalid value notification"])) ∧
    (∀ msg, Event.didError .unexpected msg ∉ (Manager.NotifyValue s value).2) := by
  obtain ⟨cm, resp⟩ := s
  simp only at hc hn
  subst hc
  subst hn
  refine ⟨?_, ?_, ?_, ?_⟩
  · intro p hread hack
    have hrp : stc.ReadPacket p = ({ stc with has_ack := true }, 0) := by
      simp [SetTimeCommand.ReadPacket, hack]
    simp [Manager.NotifyValue, hread, hrp, SetTimeCommand.MaybeFinish]
  · intro p hread hval hasack
    have hrp : stc.ReadPacket p = (stc, 1) := by
      simp [SetTimeCommand.ReadPacket, ReadAck, hval]
    simp [Manager.NotifyValue, hread, hrp, SetTimeCommand.MaybeFinish, hasack]
  · intro p hread hneg
    have hunch := setTimeReadPacket_neg stc p hneg
    rcases hrp : stc.ReadPacket p with ⟨stc', r⟩
    rw [hrp] at hneg hunch
    simp only at hneg hunch
    subst hunch
    simp [Manager.NotifyValue, hread, hrp, hneg]
  · intro msg
    cases hread : VLReadPacket value with
    | none => simp [Manager.NotifyValue, hread]
    | some p =>
      rcases hrp : stc.ReadPacket p with ⟨stc', r⟩
      by_cases hneg : r < 0
      · simp [Manager.NotifyValue, hread, hrp, hneg]
      · cases hma : stc'.has_ack <;>
          simp [Manager.NotifyValue, hread, hrp, hneg,
            SetTimeCommand.MaybeFinish, hma]

/-- Witness for C4 (amended): a concrete valid ack for a fresh SetTime
command fires the callback and keeps the command installed. -/
theorem C4_set_time_completion_witness :
    Manager.NotifyValue ⟨some ⟨968934400, false⟩, none⟩
        (devicePacketBytes 7 33032 []) =
      (⟨some ⟨968934400, true⟩, none⟩,
       [Event.didSetTime true, Event.didFinishWaiting]) := by
  have h := (C4_set_time_completion ⟨some ⟨968934400, false⟩, none⟩
      ⟨968934400, false⟩ (devicePacketBytes 7 33032 []) rfl rfl).1
    ⟨237, 0, 1, 3, 8, 129, []⟩ (by decide) (by decide)
  simpa using h

end Viv
